import Mathlib

/-!
Verification of the Health Whisperer nudge decision engine.

Shallow embedding of the nudge engine of this repository:
  - `nudge_engine.py` (quiet hours, gap calculator, UCB1 bandit, rule engine)
  - `workers/nudge_worker.py` (7-day pace profile, suppression gates,
    deduplication, cooldown, per-user decision cycle)

Modelling conventions:
  - Python floats are modelled as exact rationals (`ℚ`); `int(...)` truncation
    toward zero is `truncQ`, Python `round` (banker`s rounding) is `pyRound`,
    and `//` floor division on integers is `Int.fdiv`.
  - Python `datetime` values are reduced to what the code reads from them:
    a local time of day (`LocalTime`, second resolution; the code never
    consults sub-second fields in a comparison that the claims touch) and
    UTC instants as integer epoch seconds.
  - Database rows are passed explicitly as lists/structures; each function
    takes the data its Python counterpart fetches.
  - `hashlib.sha256(blob).hexdigest()` is modelled as an injective function
    of `blob`, represented by the blob itself: equal blobs give equal
    digests (true of sha256), and distinct blobs give distinct digests
    (ideal-hash assumption, collision freedom).
-/

set_option maxRecDepth 20000

namespace HW

/-- A local time of day, second resolution (mirrors what the worker reads
from a localized `datetime`: `hour`, `minute`, and ordering comparisons). -/
structure LocalTime where
  hour : ℕ
  minute : ℕ
  second : ℕ
deriving DecidableEq

/-- Seconds since local midnight; `datetime`/`time` comparisons on a fixed
day are equivalent to comparisons of this value. -/
def LocalTime.toSec (t : LocalTime) : ℕ :=
  t.hour * 3600 + t.minute * 60 + t.second

/-- `now_l.hour + now_l.minute/60.0` as used throughout the worker. -/
def LocalTime.hourQ (t : LocalTime) : ℚ :=
  (t.hour : ℚ) + (t.minute : ℚ) / 60

/-- Python `int(x)`: truncation of a real number toward zero. -/
def truncQ (q : ℚ) : ℤ :=
  if q < 0 then -⌊-q⌋ else ⌊q⌋

/-- Python `round(x)` on a real number: round half to even. -/
def pyRound (q : ℚ) : ℤ :=
  let f := ⌊q⌋
  if q - f < 1 / 2 then f
  else if 1 / 2 < q - f then f + 1
  else if f % 2 = 0 then f else f + 1

/-- Python `x or default` for an optional integer field: both a missing
value and a stored `0` (falsy) fall back to the default. -/
def orZ (o : Option ℤ) (d : ℤ) : ℤ :=
  match o with
  | none => d
  | some v => if v = 0 then d else v

/-- Python `s or default` for an optional string field: both a missing
value and an empty string (falsy) fall back to the default. -/
def orS (o : Option String) (d : String) : String :=
  match o with
  | none => d
  | some s => if s = "" then d else s

/-! ## `nudge_engine.py` -/

/-- `nudge_engine.in_quiet_hours` (lines 6-12): quiet window on `time`
values; half-open `[qs, qe)` in the non-wrapping case, and
`now >= qs or now < qe` in the midnight-wrapping case. -/
def in_quiet_hours (now qs qe : LocalTime) : Bool :=
  if qs.toSec ≤ qe.toSec then
    decide (qs.toSec ≤ now.toSec ∧ now.toSec < qe.toSec)
  else
    decide (now.toSec ≥ qs.toSec ∨ now.toSec < qe.toSec)

/-- The optional metric fields `compute_gaps` reads (`metrics` dict). -/
structure Metrics where
  steps : Option ℤ
  water_ml : Option ℤ
  sleep_minutes : Option ℤ
deriving DecidableEq

/-- The optional goal fields `compute_gaps` reads (`goals` dict). -/
structure Goals where
  steps : Option ℤ
  water_ml : Option ℤ
  sleep_minutes : Option ℤ
deriving DecidableEq

/-- The result dict of `compute_gaps`: a key is present (`some`) exactly
when both the goal and the metric were present. -/
structure Gaps where
  steps_gap : Option ℤ
  gap_ml : Option ℤ
  sleep_gap : Option ℤ
deriving DecidableEq

/-- One entry of `compute_gaps`: present exactly when both the goal and the
metric are present, and then equal to `max(0, goal - metric)`. -/
def gapOf (goal metric : Option ℤ) : Option ℤ :=
  match goal, metric with
  | some g, some m => some (max 0 (g - m))
  | _, _ => none

/-- `nudge_engine.compute_gaps` (lines 17-25). -/
def compute_gaps (metrics : Metrics) (goals : Goals) : Gaps where
  steps_gap := gapOf goals.steps metrics.steps
  gap_ml := gapOf goals.water_ml metrics.water_ml
  sleep_gap := gapOf goals.sleep_minutes metrics.sleep_minutes

/-- UCB score of one arm inside `bandit_ucb1`:
`mean + c * sqrt(log(total) / n)` with `n = max(1, counts[arm])`.
`sqrtQ` and `logQ` stand for the real functions `math.sqrt` and `math.log`;
theorems assume only properties those functions have (e.g. nonnegativity of
`sqrt`), and concrete evaluations instantiate them at arguments where the
real value is rational (e.g. `sqrt(log 1) = 0`). -/
def ucbScore (counts : String → ℤ) (rewards : String → ℚ) (sqrtQ logQ : ℚ → ℚ)
    (c : ℚ) (total : ℤ) (arm : String) : ℚ :=
  let n : ℤ := max 1 (counts arm)
  rewards arm / (n : ℚ) + c * sqrtQ (logQ (total : ℚ) / (n : ℚ))

/-- The argmax loop of `bandit_ucb1`: scan the arms in order, keeping the
strictly best score seen so far, starting from `(None, -1e9)`. -/
def ucbFold (score : String → ℚ) : List String → Option String × ℚ → Option String × ℚ
  | [], acc => acc
  | arm :: rest, acc =>
    ucbFold score rest (if acc.2 < score arm then (some arm, score arm) else acc)

/-- `total = sum(max(1, n) for n in counts.values()) or 1` (line 38). -/
def totalOf (arms : List String) (counts : String → ℤ) : ℤ :=
  let s : ℤ := (arms.map fun a => max 1 (counts a)).sum
  if s = 0 then 1 else s

/-- `nudge_engine.bandit_ucb1` (lines 36-46); exploration constant `c`
passed explicitly (the Python default is `1.2`). -/
def bandit_ucb1 (arms : List String) (counts : String → ℤ) (rewards : String → ℚ)
    (sqrtQ logQ : ℚ → ℚ) (c : ℚ) : Option String :=
  (ucbFold (ucbScore counts rewards sqrtQ logQ c (totalOf arms counts)) arms
    (none, -(10 ^ 9 : ℚ))).1

/-- `nudge_engine.select_nudge` (lines 48-57). `countsOf`/`rewardsOf` model
`bandit_stats["counts"].get(k, 0)` / `bandit_stats["rewards"].get(k, 0.0)`;
`r` is the oracle for `random.choice` (uniformly random index). On an empty
candidate list Python `random.choice` raises; the model returns `none`. -/
def select_nudge (candidates : List String) (countsOf : String → ℤ)
    (rewardsOf : String → ℚ) (sqrtQ logQ : ℚ → ℚ) (r : ℕ) : Option String :=
  if candidates.all fun k => countsOf k = 0 then
    candidates.get? (r % candidates.length)
  else
    bandit_ucb1 candidates countsOf rewardsOf sqrtQ logQ (6 / 5)

/-- The fields of the `latest` dict that `rules_engine` reads. -/
structure EngineLatest where
  steps : Option ℚ
  hours_since_last_meal : Option ℚ
  mood_logged_today : Option Bool
deriving DecidableEq

/-- The five threshold rules of `rules_engine` (lines 61-77), in source
order, before the fallback: hydrate, move, sleep, meal_log, mood_checkin.
`steps_ewma` models `baselines.get("steps_ewma", 5000)`; `gap_ml` models
`gaps.get("gap_ml", 0)`. -/
def rules_eligible (now : LocalTime) (steps_ewma : Option ℚ)
    (latest : EngineLatest) (gap_ml : Option ℚ) : List String :=
  (if gap_ml.getD 0 ≥ 200 ∧ now.hour < 21 then ["hydrate"] else []) ++
  (match latest.steps with
   | some s =>
     if steps_ewma.getD 5000 * (1 / 2) > s ∧ 9 ≤ now.hour ∧ now.hour < 20 then
       ["move"]
     else []
   | none => []) ++
  (if now.hour = 21 ∨ now.hour = 22 then ["sleep"] else []) ++
  (if latest.hours_since_last_meal.getD 0 ≥ 5 then ["meal_log"] else []) ++
  (if latest.mood_logged_today = some false ∧ 12 ≤ now.hour ∧ now.hour < 16 then
     ["mood_checkin"]
   else [])

/-- `nudge_engine.rules_engine` (lines 59-81): the threshold rules plus the
`breathe` fallback appended when nothing else is eligible. -/
def rules_engine (now : LocalTime) (steps_ewma : Option ℚ)
    (latest : EngineLatest) (gap_ml : Option ℚ) : List String :=
  if rules_eligible now steps_ewma latest gap_ml = [] then ["breathe"]
  else rules_eligible now steps_ewma latest gap_ml

/-! ## `workers/nudge_worker.py` -/

/-- One `hw_meals` row as the worker reads it: the `meal_type` text, the
`calories` integer, the local-time hour fraction `t.hour + t.minute/60`
obtained by localizing the row timestamp, and the raw UTC timestamp in
epoch seconds (used by `ate_recently`). -/
structure Meal where
  meal_type : String
  calories : ℤ
  hour : ℚ
  ts : ℤ
deriving DecidableEq

/-- Python `str.lower()` restricted to the ASCII range, which covers every
meal-type string the code compares against. -/
def lowerStr (s : String) : String :=
  String.mk (s.data.map Char.toLower)

/-- `median` (worker lines 90-92): middle of the sorted values, mean of the
two middle values for even length, `12.0` on an empty list. Python `sorted`
is a stable sort; `List.insertionSort` is as well. -/
def median (vals : List ℚ) : ℚ :=
  let s := List.insertionSort (· ≤ ·) vals
  let n := s.length
  if n = 0 then 12
  else if n % 2 = 1 then s.getD (n / 2) 0
  else (s.getD (n / 2 - 1) 0 + s.getD (n / 2) 0) / 2

/-- The bucket a meal is assigned to: `(meal_type or "snacks").lower()`,
with any type outside the four known ones folded into `"snacks"`. -/
def mealBucket (mt : String) : String :=
  let t := lowerStr (if mt = "" then "snacks" else mt)
  if t = "breakfast" ∨ t = "lunch" ∨ t = "snacks" ∨ t = "dinner" then t
  else "snacks"

/-- `kcal_by[k]`: total calories of the meals in bucket `k`. -/
def kcalBy (meals : List Meal) (k : String) : ℤ :=
  ((meals.filter fun m => mealBucket m.meal_type == k).map fun m => m.calories).sum

/-- `total`: the calories of all meals in the 7-day window. -/
def totalKcal (meals : List Meal) : ℤ :=
  (meals.map fun m => m.calories).sum

/-- `buckets[k]`: the local hours of the meals in bucket `k`, in row order. -/
def bucketHours (meals : List Meal) (k : String) : List ℚ :=
  (meals.filter fun m => mealBucket m.meal_type == k).map fun m => m.hour

/-- `frac(k) = kcal_by[k] / max(1, total)` (worker line 110). -/
def fracOf (meals : List Meal) (k : String) : ℚ :=
  (kcalBy meals k : ℚ) / (max 1 (totalKcal meals) : ℚ)

/-- The anchor hour of a bucket: the median of its hours, or the listed
default when the bucket is empty (worker lines 112-115). -/
def anchorHour (meals : List Meal) (k : String) (d : ℚ) : ℚ :=
  if bucketHours meals k = [] then d else median (bucketHours meals k)

/-- Comparison by anchor hour, the sort key `lambda x: x[0]` of the
`sorted` call building the profile points. -/
def hourLE (a b : ℚ × ℚ) : Prop :=
  a.1 ≤ b.1

instance : DecidableRel hourLE := fun a b => by
  unfold hourLE; infer_instance

instance : IsTrans (ℚ × ℚ) hourLE :=
  ⟨fun _ _ _ h₁ h₂ => le_trans h₁ h₂⟩

instance : IsTotal (ℚ × ℚ) hourLE :=
  ⟨fun a b => le_total a.1 b.1⟩

/-- The four `(hour, share)` points, sorted by hour (worker lines 111-116;
`sorted(..., key=lambda x: x[0])` is a stable sort on the first component,
as is `List.insertionSort`). -/
def profilePoints (meals : List Meal) : List (ℚ × ℚ) :=
  List.insertionSort hourLE
    [(anchorHour meals "breakfast" (19 / 2), fracOf meals "breakfast"),
     (anchorHour meals "lunch" 13, fracOf meals "lunch"),
     (anchorHour meals "snacks" 16, fracOf meals "snacks"),
     (anchorHour meals "dinner" (39 / 2), fracOf meals "dinner")]

/-- The accumulation loop (worker lines 118-120):
`cum = min(1.0, cum + fr); anchors.append((h, cum))`. -/
def accumAnchors : ℚ → List (ℚ × ℚ) → List (ℚ × ℚ)
  | _, [] => []
  | cum, (h, fr) :: rest =>
    let c := min 1 (cum + fr)
    (h, c) :: accumAnchors c rest

/-- `rolling_7d_profile` (worker lines 94-121) as a function of the meals
fetched for the trailing 7 days; the fixed default curve with no history. -/
def rolling_7d_profile (meals : List Meal) : List (ℚ × ℚ) :=
  if meals = [] then [(21 / 2, 1 / 4), (27 / 2, 3 / 5), (17, 3 / 4), (20, 19 / 20)]
  else accumAnchors 0 (profilePoints meals)

/-- Python tuple ordering on `(hour, cum)` pairs, as used by
`sorted(anchors)` inside `expected_fraction`. -/
def anchorLex (a b : ℚ × ℚ) : Prop :=
  a.1 < b.1 ∨ (a.1 = b.1 ∧ a.2 ≤ b.2)

instance : DecidableRel anchorLex := fun a b => by
  unfold anchorLex; infer_instance

instance : IsTrans (ℚ × ℚ) anchorLex := by
  constructor
  rintro a b c (h₁ | ⟨e₁, h₁⟩) (h₂ | ⟨e₂, h₂⟩)
  · exact Or.inl (lt_trans h₁ h₂)
  · exact Or.inl (e₂ ▸ h₁)
  · exact Or.inl (e₁ ▸ h₂)
  · exact Or.inr ⟨e₁.trans e₂, le_trans h₁ h₂⟩

instance : IsTotal (ℚ × ℚ) anchorLex := by
  constructor
  intro a b
  rcases lt_trichotomy a.1 b.1 with h | h | h
  · exact Or.inl (Or.inl h)
  · rcases le_total a.2 b.2 with h₂ | h₂
    · exact Or.inl (Or.inr ⟨h, h₂⟩)
    · exact Or.inr (Or.inr ⟨h.symm, h₂⟩)
  · exact Or.inr (Or.inl h)

/-- The scan-with-break of `expected_fraction` (worker lines 126-128):
take the cumulative value of the last anchor whose hour is `≤ h`, stopping
at the first anchor past `h`. -/
def efGo (h : ℚ) : List (ℚ × ℚ) → ℚ → ℚ
  | [], f => f
  | (ah, cum) :: rest, f => if ah ≤ h then efGo h rest cum else f

/-- `expected_fraction` (worker lines 123-129): step-function lookup over
the lexicographically sorted anchors, clamped into `[0, 1]`. -/
def expected_fraction (h : ℚ) (anchors : List (ℚ × ℚ)) : ℚ :=
  min 1 (max 0 (efGo h (List.insertionSort anchorLex anchors) 0))

/-- `ate_recently` (worker lines 131-134): the first row of the
descending-ordered meal list is the latest meal; true when it is strictly
less than `minutes` minutes before now. -/
def ate_recently (meals : List Meal) (nowUtcSec : ℤ) (minutes : ℤ) : Bool :=
  match meals with
  | [] => false
  | m :: _ => decide (nowUtcSec - m.ts < minutes * 60)

/-- `_bucket` (worker lines 178-181): `0` for nonpositive values, else
`round(val / size) * size` with Python banker`s rounding. -/
def bucket (val size : ℤ) : ℤ :=
  if val ≤ 0 then 0 else pyRound ((val : ℚ) / (size : ℚ)) * size

/-- The `hw_preferences` fields the worker reads. Quiet-hours bounds are
stored as `"HH:MM"` text and parsed with `int()` inside a `try/except`; the
model carries the parsed `(hour, minute)` pair, with `none` for a missing
or blank value (an unparsable text falls back to the same defaults). -/
structure Prefs where
  quiet_start : Option (ℕ × ℕ)
  quiet_end : Option (ℕ × ℕ)
  calendar_ics_url : Option String
  daily_calorie_goal : Option ℤ
  daily_step_goal : Option ℤ
  daily_water_ml : Option ℤ
  sleep_goal_min : Option ℤ
  last_nudge_hash : Option String
  nudge_channel : Option String
deriving DecidableEq

/-- The fields of the latest `hw_metrics` row that `build_nudges` reads;
`int(latest.get(k) or 0)` maps both a missing field and `0` to `0`, which
coincides with `Option.getD 0`. -/
structure Latest where
  steps : Option ℤ
  water_ml : Option ℤ
  sleep_minutes : Option ℤ
  mood : Option ℤ
deriving DecidableEq

/-- One candidate nudge dict as built by `build_nudges`. -/
structure Nudge where
  type : String
  icon : String
  title : String
  msg : String
  hash_key : String
deriving DecidableEq

/-- `is_quiet_hours` (worker lines 137-150): build today-anchored `start`
and `end` datetimes from the parsed quiet bounds (defaults 22:00 / 07:00)
and compare; `start <= now <= end` when not wrapping midnight, and
`not (end < now < start)` when wrapping. -/
def is_quiet_hours (now : LocalTime) (pf : Prefs) : Bool :=
  let q := pf.quiet_start.getD (22, 0)
  let e := pf.quiet_end.getD (7, 0)
  let startSec := (q.1 * 60 + q.2) * 60
  let endSec := (e.1 * 60 + e.2) * 60
  let n := now.toSec
  if startSec ≤ endSec then decide (startSec ≤ n ∧ n ≤ endSec)
  else !decide (endSec < n ∧ n < startSec)

/-- A busy interval of the fetched calendar, already normalized to UTC
epoch seconds (the worker converts both datetime- and date-valued
`dtstart`/`dtend` to UTC instants before comparing). -/
structure CalEvent where
  startSec : ℤ
  endSec : ℤ
deriving DecidableEq

/-- `busy_by_calendar` (worker lines 152-175). `feed` is the outcome of the
HTTP fetch plus ICS parse: `Except.error` for any fetch/parse failure
(network error, timeout, `raise_for_status`, malformed ICS), which the
`except` clause turns into `False`; `Except.ok` carries the normalized
events, and the worker reports busy when `s <= now_u <= e` for any event. -/
def busy_by_calendar (pf : Prefs) (feed : Except String (List CalEvent))
    (nowUtcSec : ℤ) : Bool :=
  if orS pf.calendar_ics_url "" = "" then false
  else
    match feed with
    | Except.error _ => false
    | Except.ok evs => evs.any fun ev => decide (ev.startSec ≤ nowUtcSec ∧ nowUtcSec ≤ ev.endSec)

/-- `int(kcal_goal * expected_fraction(now_l, anchors))` (worker line 201),
with the goal defaulted by `or 2000`. -/
def expKcal (pf : Prefs) (now : LocalTime) (meals7d : List Meal) : ℤ :=
  truncQ ((orZ pf.daily_calorie_goal 2000 : ℚ) *
    expected_fraction now.hourQ (rolling_7d_profile meals7d))

/-- `sum(int(m.get("calories") or 0) for m in meals)` (worker line 202). -/
def actualKcal (mealsToday : List Meal) : ℤ :=
  totalKcal mealsToday

/-- `kcal_def = max(0, exp_kcal - actual_kcal)` (worker line 203). -/
def kcalDeficit (pf : Prefs) (now : LocalTime) (meals7d mealsToday : List Meal) : ℤ :=
  max 0 (expKcal pf now meals7d - actualKcal mealsToday)

/-- `exp_steps = int(steps_goal * max(0.0, min(1.0, day_frac * 1.05)))`
(worker lines 214-215). -/
def expSteps (pf : Prefs) (now : LocalTime) : ℤ :=
  truncQ ((orZ pf.daily_step_goal 8000 : ℚ) *
    max 0 (min 1 (now.hourQ / 24 * (21 / 20))))

/-- `step_def = max(0, exp_steps - steps)` (worker line 217). -/
def stepDeficit (pf : Prefs) (now : LocalTime) (latest : Latest) : ℤ :=
  max 0 (expSteps pf now - latest.steps.getD 0)

/-- Expected water (worker lines 228-232): 90-minute blocks across the
9:00-19:00 window, each worth a tenth of the goal, zero outside it. -/
def expWater (pf : Prefs) (now : LocalTime) : ℤ :=
  if 9 ≤ now.hour ∧ now.hour ≤ 19 then
    let blocks : ℤ := Int.fdiv (((now.hour : ℤ) - 9) * 60 + (now.minute : ℤ)) 90
    truncQ ((min 10 (max 0 blocks) : ℚ) * ((orZ pf.daily_water_ml 2000 : ℚ) / 10))
  else 0

/-- `water_def = max(0, exp_water - water)` (worker line 234). -/
def waterDeficit (pf : Prefs) (now : LocalTime) (latest : Latest) : ℤ :=
  max 0 (expWater pf now - latest.water_ml.getD 0)

/-- `build_nudges` (worker lines 183-277) as a function of the data the
Python version fetches: preferences, the local time, the UTC instant, the
rows of today`s meals (descending by timestamp), the trailing-7-day meal
rows, and the latest metrics row. -/
def build_nudges (pf : Prefs) (now : LocalTime) (nowUtcSec : ℤ)
    (mealsToday meals7d : List Meal) (latest : Latest) : List Nudge :=
  let kcal_def := kcalDeficit pf now meals7d mealsToday
  let n1 : List Nudge :=
    if 150 ≤ kcal_def ∧ ate_recently mealsToday nowUtcSec 75 = false ∧ 11 ≤ now.hour then
      [⟨"kcal_pace", "🍽️", "Fuel up (pace)",
        "~" ++ toString kcal_def ++ " kcal behind your usual pace. Try a protein mini-meal.",
        "kcal_pace|" ++ toString (bucket kcal_def 100)⟩]
    else []
  let step_def := stepDeficit pf now latest
  let n2 : List Nudge :=
    if 500 ≤ step_def ∧ 10 ≤ now.hour then
      [⟨"steps_pace", "🚶", "Move a little",
        toString step_def ++ " steps to stay on pace. 10–15 min brisk walk.",
        "steps_pace|" ++ toString (bucket step_def 500)⟩]
    else []
  let water_def := waterDeficit pf now latest
  let n3 : List Nudge :=
    if 150 ≤ water_def then
      [⟨"water_pace", "💧", "Hydrate",
        toString water_def ++ " ml to stay on track. Sip a glass now.",
        "water_pace|" ++ toString (bucket water_def 100)⟩]
    else []
  let sleep := latest.sleep_minutes.getD 0
  let n4 : List Nudge :=
    if sleep ≠ 0 ∧ sleep < orZ pf.sleep_goal_min 420 then
      [⟨"sleep_recovery", "😴", "Earlier wind-down",
        "Sleep was light. Try a 30-min earlier wind-down tonight.",
        "sleep_recovery|1"⟩]
    else []
  let mood := latest.mood.getD 0
  let n5 : List Nudge :=
    if mood ≠ 0 ∧ mood ≤ 2 then
      [⟨"mood_reset", "🌤️", "Mental reset",
        "Low mood — 2-min box breathing or a 5-min walk can help.",
        "mood_reset|1"⟩]
    else []
  let base := n1 ++ n2 ++ n3 ++ n4 ++ n5
  let withDefault :=
    if base = [] ∧ 10 ≤ now.hour ∧ now.hour ≤ 18 then
      base ++ [⟨"breathing", "🌬️", "60-second breathing",
        "Inhale 4, hold 4, exhale 4, hold 4 — 8 cycles.", "breathing|1"⟩]
    else base
  if withDefault = [] then
    [⟨"on_track", "✨", "On track", "Nice work! Keep the streak going.", "on_track|1"⟩]
  else withDefault.take 3

/-- `nudges_hash` (worker lines 279-281): sha256 of the joined
`hash_key + ";"` blob, modelled by the blob itself (see header note). -/
def nudges_hash (ns : List Nudge) : String :=
  String.join (ns.map fun n => n.hash_key ++ ";")

/-- One `hw_nudges_log` row as the worker reads and writes it: insertion
time (epoch seconds), delivery channel, the `type` field of the stored
payload, and the stored content hash. -/
structure LogRow where
  ts : ℤ
  channel : String
  ptype : String
  rhash : String
deriving DecidableEq

/-- `sent_same_type_recently` (worker lines 329-345): query the user`s log
rows with `channel = "telegram"` and `ts >= now - minutes`, descending by
timestamp, limited to 20, and report whether any has the given type. -/
def sent_same_type_recently (logRows : List LogRow) (nowUtcSec : ℤ)
    (nudge_type : String) (minutes : ℤ) : Bool :=
  ((List.insertionSort (fun a b : LogRow => b.ts ≤ a.ts)
      (logRows.filter fun r =>
        decide (r.channel = "telegram" ∧ nowUtcSec - minutes * 60 ≤ r.ts))).take 20).any
    fun r => r.ptype == nudge_type

/-- The per-user, per-tick terminal state of `process_user`. -/
inductive Outcome
  | skipped_quiet
  | skipped_busy
  | skipped_hash
  | skipped_cooldown
  | sent (channel : String)
  | no_dest
  | send_raised
deriving DecidableEq

/-- `hw_preferences.update({"last_nudge_hash": h})` (worker line 377). -/
def setLastHash (pf : Prefs) (h : String) : Prefs :=
  ⟨pf.quiet_start, pf.quiet_end, pf.calendar_ics_url, pf.daily_calorie_goal,
   pf.daily_step_goal, pf.daily_water_ml, pf.sleep_goal_min, some h,
   pf.nudge_channel⟩

/-- `process_user` (worker lines 348-377) as a function of the data its
Python version fetches, returning the terminal outcome together with the
resulting preferences row and decision log. `chatId` is the resolved
telegram destination (from preferences or the `hw_users` fallback);
`sendOk` is whether the telegram send call returns rather than raises.
The Python locals `nudges = build_nudges(uid)`, `h = nudges_hash(nudges)`
and `n = nudges[0]` are written out inline here (each occurrence denotes
the same value).
The fallback head nudge `⟨"", ...⟩` is unreachable: `build_nudges` never
returns an empty list (`build_nudges_ne_nil`). -/
def process_user (pf : Prefs) (now : LocalTime) (nowUtcSec : ℤ)
    (feed : Except String (List CalEvent)) (mealsToday meals7d : List Meal)
    (latest : Latest) (logRows : List LogRow) (chatId : Option String)
    (sendOk : Bool) : Outcome × Prefs × List LogRow :=
  if is_quiet_hours now pf then (Outcome.skipped_quiet, pf, logRows)
  else if busy_by_calendar pf feed nowUtcSec then (Outcome.skipped_busy, pf, logRows)
  else if pf.last_nudge_hash =
      some (nudges_hash (build_nudges pf now nowUtcSec mealsToday meals7d latest)) then
    (Outcome.skipped_hash, pf, logRows)
  else if sent_same_type_recently logRows nowUtcSec
      ((build_nudges pf now nowUtcSec mealsToday meals7d latest).headD
        ⟨"", "", "", "", ""⟩).type 5 then
    (Outcome.skipped_cooldown, pf, logRows)
  else if orS pf.nudge_channel "telegram" = "inapp" then
    (Outcome.sent "inapp",
     setLastHash pf (nudges_hash (build_nudges pf now nowUtcSec mealsToday meals7d latest)),
     logRows ++ [⟨nowUtcSec, "inapp",
       ((build_nudges pf now nowUtcSec mealsToday meals7d latest).headD
         ⟨"", "", "", "", ""⟩).type,
       nudges_hash (build_nudges pf now nowUtcSec mealsToday meals7d latest)⟩])
  else
    match chatId with
    | none =>
      (Outcome.no_dest,
       setLastHash pf (nudges_hash (build_nudges pf now nowUtcSec mealsToday meals7d latest)),
       logRows)
    | some _ =>
      if sendOk then
        (Outcome.sent "telegram",
         setLastHash pf (nudges_hash (build_nudges pf now nowUtcSec mealsToday meals7d latest)),
         logRows ++ [⟨nowUtcSec, "telegram",
           ((build_nudges pf now nowUtcSec mealsToday meals7d latest).headD
             ⟨"", "", "", "", ""⟩).type,
           nudges_hash (build_nudges pf now nowUtcSec mealsToday meals7d latest)⟩])
      else (Outcome.send_raised, pf, logRows)

/-- Well-formedness of an anchor list: sorted by hour, cumulative values
tracing a nondecreasing chain from 0, each capped at 1. -/
def anchorsWF (A : List (ℚ × ℚ)) : Prop :=
  List.Pairwise hourLE A ∧
  List.Chain (· ≤ ·) 0 (A.map Prod.snd) ∧
  ∀ p ∈ A, p.2 ≤ 1

/-! ## Supporting lemmas -/

lemma gapOf_eq_some {g m : Option ℤ} {v : ℤ} (h : gapOf g m = some v) :
    0 ≤ v ∧ v = max 0 (g.getD 0 - m.getD 0) := by
  cases g with
  | none => simp [gapOf] at h
  | some t =>
    cases m with
    | none => simp [gapOf] at h
    | some a =>
      simp only [gapOf, Option.some.injEq] at h
      exact ⟨h ▸ le_max_left 0 (t - a), by simp [← h]⟩

lemma take3_shape_ne_nil (l : List Nudge) (d : Nudge) :
    (if l = [] then [d] else l.take 3) ≠ [] := by
  split
  · simp
  · next h =>
    cases l with
    | nil => exact absurd rfl h
    | cons a t => simp

lemma build_nudges_ne_nil (pf : Prefs) (now : LocalTime) (nowUtcSec : ℤ)
    (mealsToday meals7d : List Meal) (latest : Latest) :
    build_nudges pf now nowUtcSec mealsToday meals7d latest ≠ [] := by
  simp only [build_nudges]
  exact take3_shape_ne_nil _ _

/-! ## Claim theorems -/

/-- C1: the spec requires the quiet window to be the half-open interval
`[start, end)` of local time of day in both the wrapping and the
non-wrapping case. `nudge_engine.in_quiet_hours` satisfies every listed
test point (first conjunct block), but the worker gate
`is_quiet_hours` treats the window as closed: with the wrap window
22:00-07:00 it reports 07:00 itself as quiet, and with the non-wrap window
09:00-17:00 it reports 17:00 itself as quiet (last two conjuncts),
contradicting the spec point `07:00 → not quiet`. -/
theorem c1_quiet_hours_boundary_eval :
    (in_quiet_hours ⟨23, 30, 0⟩ ⟨22, 0, 0⟩ ⟨7, 0, 0⟩ = true ∧
     in_quiet_hours ⟨6, 59, 0⟩ ⟨22, 0, 0⟩ ⟨7, 0, 0⟩ = true ∧
     in_quiet_hours ⟨7, 0, 0⟩ ⟨22, 0, 0⟩ ⟨7, 0, 0⟩ = false ∧
     in_quiet_hours ⟨12, 0, 0⟩ ⟨22, 0, 0⟩ ⟨7, 0, 0⟩ = false ∧
     in_quiet_hours ⟨12, 0, 0⟩ ⟨9, 0, 0⟩ ⟨17, 0, 0⟩ = true ∧
     in_quiet_hours ⟨8, 0, 0⟩ ⟨9, 0, 0⟩ ⟨17, 0, 0⟩ = false) ∧
    is_quiet_hours ⟨7, 0, 0⟩
      ⟨some (22, 0), some (7, 0), none, none, none, none, none, none, none⟩ = true ∧
    is_quiet_hours ⟨17, 0, 0⟩
      ⟨some (9, 0), some (17, 0), none, none, none, none, none, none, none⟩ = true := by
  decide

/-- C2: every gap the Gap Calculator emits is nonnegative and equals
`max(0, target - actual)`; the worker deficits (calories against the pace
profile expectation, steps, water) are likewise `max(0, expected - actual)`
and hence nonnegative. -/
theorem c2_gap_calculator_nonneg (metrics : Metrics) (goals : Goals) (v : ℤ)
    (pf : Prefs) (now : LocalTime) (meals7d mealsToday : List Meal) (latest : Latest)
    (h : (compute_gaps metrics goals).steps_gap = some v ∨
         (compute_gaps metrics goals).gap_ml = some v ∨
         (compute_gaps metrics goals).sleep_gap = some v) :
    0 ≤ v ∧
    (v = max 0 (goals.steps.getD 0 - metrics.steps.getD 0) ∨
     v = max 0 (goals.water_ml.getD 0 - metrics.water_ml.getD 0) ∨
     v = max 0 (goals.sleep_minutes.getD 0 - metrics.sleep_minutes.getD 0)) ∧
    0 ≤ kcalDeficit pf now meals7d mealsToday ∧
    kcalDeficit pf now meals7d mealsToday =
      max 0 (expKcal pf now meals7d - actualKcal mealsToday) ∧
    0 ≤ stepDeficit pf now latest ∧
    stepDeficit pf now latest = max 0 (expSteps pf now - latest.steps.getD 0) ∧
    0 ≤ waterDeficit pf now latest ∧
    waterDeficit pf now latest = max 0 (expWater pf now - latest.water_ml.getD 0) := by
  refine ⟨?_, ?_, le_max_left _ _, rfl, le_max_left _ _, rfl, le_max_left _ _, rfl⟩
  · rcases h with h | h | h <;> exact (gapOf_eq_some h).1
  · rcases h with h | h | h
    · exact Or.inl (gapOf_eq_some h).2
    · exact Or.inr (Or.inl (gapOf_eq_some h).2)
    · exact Or.inr (Or.inr (gapOf_eq_some h).2)

/-- Witness for C2 at a concrete input: steps goal 8000, steps metric 6000,
yielding the gap 2000. -/
theorem c2_gap_calculator_nonneg_witness :
    0 ≤ (2000 : ℤ) ∧
    ((2000 : ℤ) = max 0 ((some (8000 : ℤ)).getD 0 - (some (6000 : ℤ)).getD 0) ∨
     (2000 : ℤ) = max 0 ((none : Option ℤ).getD 0 - (none : Option ℤ).getD 0) ∨
     (2000 : ℤ) = max 0 ((none : Option ℤ).getD 0 - (none : Option ℤ).getD 0)) ∧
    0 ≤ kcalDeficit ⟨none, none, none, none, none, none, none, none, none⟩ ⟨12, 0, 0⟩ [] [] ∧
    kcalDeficit ⟨none, none, none, none, none, none, none, none, none⟩ ⟨12, 0, 0⟩ [] [] =
      max 0 (expKcal ⟨none, none, none, none, none, none, none, none, none⟩ ⟨12, 0, 0⟩ [] -
        actualKcal []) ∧
    0 ≤ stepDeficit ⟨none, none, none, none, none, none, none, none, none⟩ ⟨12, 0, 0⟩
        ⟨none, none, none, none⟩ ∧
    stepDeficit ⟨none, none, none, none, none, none, none, none, none⟩ ⟨12, 0, 0⟩
        ⟨none, none, none, none⟩ =
      max 0 (expSteps ⟨none, none, none, none, none, none, none, none, none⟩ ⟨12, 0, 0⟩ -
        (⟨none, none, none, none⟩ : Latest).steps.getD 0) ∧
    0 ≤ waterDeficit ⟨none, none, none, none, none, none, none, none, none⟩ ⟨12, 0, 0⟩
        ⟨none, none, none, none⟩ ∧
    waterDeficit ⟨none, none, none, none, none, none, none, none, none⟩ ⟨12, 0, 0⟩
        ⟨none, none, none, none⟩ =
      max 0 (expWater ⟨none, none, none, none, none, none, none, none, none⟩ ⟨12, 0, 0⟩ -
        (⟨none, none, none, none⟩ : Latest).water_ml.getD 0) :=
  c2_gap_calculator_nonneg ⟨some 6000, none, none⟩ ⟨some 8000, none, none⟩ 2000
    ⟨none, none, none, none, none, none, none, none, none⟩ ⟨12, 0, 0⟩ [] []
    ⟨none, none, none, none⟩ (Or.inl (by with_unfolding_all decide))

/-- C9: any failure of the calendar fetch or parse makes the busy gate
report `false` (fail open), and the decision cycle proceeds exactly as it
would with an event-free calendar. -/
theorem c9_calendar_fail_open (pf : Prefs) (now : LocalTime) (nowUtcSec : ℤ)
    (err : String) (mealsToday meals7d : List Meal) (latest : Latest)
    (logRows : List LogRow) (chatId : Option String) (sendOk : Bool) :
    busy_by_calendar pf (Except.error err) nowUtcSec = false ∧
    process_user pf now nowUtcSec (Except.error err) mealsToday meals7d latest
        logRows chatId sendOk =
      process_user pf now nowUtcSec (Except.ok []) mealsToday meals7d latest
        logRows chatId sendOk := by
  have h₁ : busy_by_calendar pf (Except.error err) nowUtcSec = false := by
    unfold busy_by_calendar
    split <;> rfl
  have h₂ : busy_by_calendar pf (Except.ok []) nowUtcSec = false := by
    unfold busy_by_calendar
    split <;> rfl
  exact ⟨h₁, by unfold process_user; rw [h₁, h₂]⟩

/-- C4: the rule engine never returns an empty candidate list, and when no
threshold rule fires the result is exactly the low-stakes `breathe`
fallback; likewise the worker candidate builder never returns an empty
list. -/
theorem c4_rules_nonempty (now : LocalTime) (steps_ewma : Option ℚ)
    (latest : EngineLatest) (gap_ml : Option ℚ) (pf : Prefs) (nowW : LocalTime)
    (nowUtcSec : ℤ) (mealsToday meals7d : List Meal) (lat : Latest) :
    rules_engine now steps_ewma latest gap_ml ≠ [] ∧
    build_nudges pf nowW nowUtcSec mealsToday meals7d lat ≠ [] ∧
    (rules_eligible now steps_ewma latest gap_ml = [] →
      rules_engine now steps_ewma latest gap_ml = ["breathe"]) := by
  refine ⟨?_, build_nudges_ne_nil pf nowW nowUtcSec mealsToday meals7d lat, ?_⟩
  · unfold rules_engine
    split
    · simp
    · assumption
  · intro h
    unfold rules_engine
    rw [h]
    simp

/-- Witness for C4: at 03:00 local with no data, no threshold rule fires
and the rule engine returns exactly the breathing fallback. -/
theorem c4_rules_nonempty_witness :
    rules_engine ⟨3, 0, 0⟩ none ⟨none, none, none⟩ none = ["breathe"] :=
  (c4_rules_nonempty ⟨3, 0, 0⟩ none ⟨none, none, none⟩ none
    ⟨none, none, none, none, none, none, none, none, none⟩ ⟨3, 0, 0⟩ 0 [] []
    ⟨none, none, none, none⟩).2.2 (by with_unfolding_all decide)

/-- C7: a decision content hash is a function only of the candidates`
`hash_key` fields (each of the form `type|bucketed-magnitude`): lists that
agree on those fields hash identically regardless of any display text.
The second conjunct exhibits two concrete runs of the candidate builder
that differ only in the raw steps value (0 vs 40 steps, hence different
raw deficits and different message text) and have identical content
hashes. -/
theorem c7_hash_only_type_bucket (ns₁ ns₂ : List Nudge)
    (h : ns₁.map (fun n => n.hash_key) = ns₂.map (fun n => n.hash_key)) :
    nudges_hash ns₁ = nudges_hash ns₂ ∧
    ((build_nudges ⟨none, none, none, none, none, none, none, none, none⟩
        ⟨14, 0, 0⟩ 1000000 [] [] ⟨some 0, none, none, none⟩).map (fun n => n.msg) ≠
      (build_nudges ⟨none, none, none, none, none, none, none, none, none⟩
        ⟨14, 0, 0⟩ 1000000 [] [] ⟨some 40, none, none, none⟩).map (fun n => n.msg) ∧
     nudges_hash (build_nudges ⟨none, none, none, none, none, none, none, none, none⟩
        ⟨14, 0, 0⟩ 1000000 [] [] ⟨some 0, none, none, none⟩) =
       nudges_hash (build_nudges ⟨none, none, none, none, none, none, none, none, none⟩
        ⟨14, 0, 0⟩ 1000000 [] [] ⟨some 40, none, none, none⟩)) := by
  constructor
  · unfold nudges_hash
    have e :
        ns₁.map (fun n => n.hash_key ++ ";") = ns₂.map (fun n => n.hash_key ++ ";") := by
      have c₁ :
          ns₁.map (fun n => n.hash_key ++ ";") =
            (ns₁.map fun n => n.hash_key).map (fun s => s ++ ";") := by
        rw [List.map_map]; rfl
      have c₂ :
          ns₂.map (fun n => n.hash_key ++ ";") =
            (ns₂.map fun n => n.hash_key).map (fun s => s ++ ";") := by
        rw [List.map_map]; rfl
      rw [c₁, c₂, h]
    rw [e]
  · exact ⟨by with_unfolding_all decide, by with_unfolding_all decide⟩

/-- Witness for C7: two single-candidate lists agreeing on `hash_key` but
with different message text hash identically. -/
theorem c7_hash_only_type_bucket_witness :
    nudges_hash [⟨"kcal_pace", "", "", "~160 kcal behind", "kcal_pace|200"⟩] =
      nudges_hash [⟨"kcal_pace", "", "", "~240 kcal behind", "kcal_pace|200"⟩] :=
  (c7_hash_only_type_bucket
    [⟨"kcal_pace", "", "", "~160 kcal behind", "kcal_pace|200"⟩]
    [⟨"kcal_pace", "", "", "~240 kcal behind", "kcal_pace|200"⟩] rfl).1

lemma ucbFold_fst_mem (score : String → ℚ) :
    ∀ (l : List String) (acc : Option String × ℚ) (a : String),
      (ucbFold score l acc).1 = some a → a ∈ l ∨ acc.1 = some a := by
  intro l
  induction l with
  | nil => exact fun acc a h => Or.inr h
  | cons arm rest ih =>
    intro acc a h
    unfold ucbFold at h
    rcases ih (if acc.2 < score arm then (some arm, score arm) else acc) a h with hm | hm
    · exact Or.inl (List.mem_cons_of_mem _ hm)
    · by_cases hlt : acc.2 < score arm
      · rw [if_pos hlt] at hm
        have : arm = a := by simpa using hm
        exact Or.inl (this ▸ List.mem_cons_self _ _)
      · rw [if_neg hlt] at hm
        exact Or.inr hm

lemma ucbFold_fst_isSome (score : String → ℚ) :
    ∀ (l : List String) (acc : Option String × ℚ),
      acc.1.isSome = true → ((ucbFold score l acc).1).isSome = true := by
  intro l
  induction l with
  | nil => exact fun acc h => h
  | cons arm rest ih =>
    intro acc h
    unfold ucbFold
    apply ih
    split
    · rfl
    · exact h

lemma ucbScore_nonneg (counts : String → ℤ) (rewards : String → ℚ)
    (sqrtQ logQ : ℚ → ℚ) (c : ℚ) (total : ℤ) (arm : String)
    (hrew : 0 ≤ rewards arm) (hsqrt : ∀ x, 0 ≤ sqrtQ x) (hc : 0 ≤ c) :
    0 ≤ ucbScore counts rewards sqrtQ logQ c total arm := by
  unfold ucbScore
  have hn : (0 : ℚ) < ((max 1 (counts arm) : ℤ) : ℚ) := by
    have h1 : (1 : ℤ) ≤ max 1 (counts arm) := le_max_left _ _
    exact_mod_cast lt_of_lt_of_le zero_lt_one h1
  exact add_nonneg (div_nonneg hrew hn.le) (mul_nonneg hc (hsqrt _))

lemma bandit_ucb1_isSome_and_mem (a0 : String) (rest : List String)
    (countsOf : String → ℤ) (rewardsOf : String → ℚ) (sqrtQ logQ : ℚ → ℚ)
    (hsqrt : ∀ x, 0 ≤ sqrtQ x) (hrew : ∀ a ∈ a0 :: rest, 0 ≤ rewardsOf a) :
    (bandit_ucb1 (a0 :: rest) countsOf rewardsOf sqrtQ logQ (6 / 5)).isSome = true ∧
    (bandit_ucb1 (a0 :: rest) countsOf rewardsOf sqrtQ logQ (6 / 5)).getD "" ∈ a0 :: rest := by
  have hpos :
      -(10 ^ 9 : ℚ) <
        ucbScore countsOf rewardsOf sqrtQ logQ (6 / 5) (totalOf (a0 :: rest) countsOf) a0 :=
    lt_of_lt_of_le (by norm_num)
      (ucbScore_nonneg _ _ _ _ _ _ _ (hrew a0 (List.mem_cons_self _ _)) hsqrt (by norm_num))
  have step :
      ucbFold (ucbScore countsOf rewardsOf sqrtQ logQ (6 / 5) (totalOf (a0 :: rest) countsOf))
          (a0 :: rest) (none, -(10 ^ 9 : ℚ)) =
        ucbFold (ucbScore countsOf rewardsOf sqrtQ logQ (6 / 5) (totalOf (a0 :: rest) countsOf))
          rest
          (some a0,
           ucbScore countsOf rewardsOf sqrtQ logQ (6 / 5) (totalOf (a0 :: rest) countsOf) a0) := by
    unfold ucbFold
    dsimp only
    rw [if_pos hpos]
    cases rest <;> rfl
  have hsome :
      (bandit_ucb1 (a0 :: rest) countsOf rewardsOf sqrtQ logQ (6 / 5)).isSome = true := by
    unfold bandit_ucb1
    rw [step]
    exact ucbFold_fst_isSome _ _ _ rfl
  refine ⟨hsome, ?_⟩
  obtain ⟨b, hb⟩ := Option.isSome_iff_exists.mp hsome
  rw [hb]
  have hb' :
      (ucbFold
          (ucbScore countsOf rewardsOf sqrtQ logQ (6 / 5) (totalOf (a0 :: rest) countsOf))
          (a0 :: rest) (none, -(10 ^ 9 : ℚ))).1 = some b := hb
  rcases ucbFold_fst_mem _ _ _ _ hb' with hm | hm
  · simpa using hm
  · exact absurd hm (by simp)

/-- C5 (amended): for a non-empty candidate list, whenever every
candidate`s cumulative reward is nonnegative (as every reward the system
ever records is, the default being 0), the selector returns a member of
the candidate list; and when every candidate`s count is zero it returns
exactly the uniformly random choice `candidates[r % len]` without touching
the UCB computation. `sqrtQ` is only assumed nonnegative, which the real
`math.sqrt` is on every value it returns. -/
theorem c5_selector_membership (candidates : List String) (countsOf : String → ℤ)
    (rewardsOf : String → ℚ) (sqrtQ logQ : ℚ → ℚ) (r : ℕ)
    (hne : candidates ≠ []) (hsqrt : ∀ x, 0 ≤ sqrtQ x)
    (hrew : ∀ a ∈ candidates, 0 ≤ rewardsOf a) :
    (select_nudge candidates countsOf rewardsOf sqrtQ logQ r).isSome = true ∧
    (select_nudge candidates countsOf rewardsOf sqrtQ logQ r).getD "" ∈ candidates ∧
    ((∀ a ∈ candidates, countsOf a = 0) →
      select_nudge candidates countsOf rewardsOf sqrtQ logQ r =
        candidates.get? (r % candidates.length)) := by
  unfold select_nudge
  split
  · -- uniform random branch
    have hlen : 0 < candidates.length := List.length_pos.mpr hne
    have hlt : r % candidates.length < candidates.length := Nat.mod_lt _ hlen
    rw [List.get?_eq_get hlt]
    refine ⟨rfl, ?_, fun _ => rfl⟩
    simp only [Option.getD_some]
    exact List.get_mem candidates _ _
  · next hall =>
    obtain ⟨a0, rest, rfl⟩ := List.exists_cons_of_ne_nil hne
    obtain ⟨h₁, h₂⟩ := bandit_ucb1_isSome_and_mem a0 rest countsOf rewardsOf sqrtQ logQ
      hsqrt hrew
    refine ⟨h₁, h₂, fun hz => ?_⟩
    exact absurd (by simpa [List.all_eq_true] using fun a ha => hz a ha) hall

/-- Counterexample for C5 as stated: with one candidate whose recorded
count is 1 and whose cumulative reward is `-3e9`, the single UCB score is
`-3e9 + 1.2*sqrt(log(1)/1) = -3e9`, which never beats the `-1e9`
initialisation of `best_ucb`, so `bandit_ucb1` returns Python `None` -
not a member of the candidate set. The oracles `sqrtQ = logQ = fun _ => 0`
agree with `math.sqrt`/`math.log` at the evaluated points
(`log 1 = 0`, `sqrt 0 = 0`). -/
theorem c5_selector_membership_counterexample :
    select_nudge ["hydrate"] (fun _ => 1) (fun _ => -(3 * 10 ^ 9)) (fun _ => 0)
      (fun _ => 0) 0 = none := by
  with_unfolding_all decide

/-- Witness for C5: two candidates with zero history; the selector returns
the random choice `candidates[3 % 2] = "hydrate"`, a member. -/
theorem c5_selector_membership_witness :
    (select_nudge ["move", "hydrate"] (fun _ => 0) (fun _ => 0) (fun _ => 0)
      (fun _ => 0) 3).isSome = true ∧
    (select_nudge ["move", "hydrate"] (fun _ => 0) (fun _ => 0) (fun _ => 0)
      (fun _ => 0) 3).getD "" ∈ ["move", "hydrate"] ∧
    select_nudge ["move", "hydrate"] (fun _ => 0) (fun _ => 0) (fun _ => 0)
      (fun _ => 0) 3 = ["move", "hydrate"].get? (3 % ["move", "hydrate"].length) := by
  have h := c5_selector_membership ["move", "hydrate"] (fun _ => 0) (fun _ => 0)
    (fun _ => 0) (fun _ => 0) 3 (by decide) (fun x => le_refl 0) (by simp)
  exact ⟨h.1, h.2.1, h.2.2 (by simp)⟩

/-- C8: if a suppression gate fires - quiet hours, or calendar busy - the
whole cycle for that user ends immediately with no decision logged and no
stored state (including the last-nudge-hash field) modified. -/
theorem c8_suppression_skips_whole_cycle (pf : Prefs) (now : LocalTime)
    (nowUtcSec : ℤ) (feed : Except String (List CalEvent))
    (mealsToday meals7d : List Meal) (latest : Latest) (logRows : List LogRow)
    (chatId : Option String) (sendOk : Bool) :
    (is_quiet_hours now pf = true →
      process_user pf now nowUtcSec feed mealsToday meals7d latest logRows
        chatId sendOk = (Outcome.skipped_quiet, pf, logRows)) ∧
    (busy_by_calendar pf feed nowUtcSec = true →
      ((process_user pf now nowUtcSec feed mealsToday meals7d latest logRows
          chatId sendOk).1 = Outcome.skipped_quiet ∨
       (process_user pf now nowUtcSec feed mealsToday meals7d latest logRows
          chatId sendOk).1 = Outcome.skipped_busy) ∧
      (process_user pf now nowUtcSec feed mealsToday meals7d latest logRows
          chatId sendOk).2 = (pf, logRows)) := by
  constructor
  · intro hq
    unfold process_user
    rw [if_pos hq]
  · intro hb
    unfold process_user
    by_cases hq : is_quiet_hours now pf = true
    · rw [if_pos hq]
      exact ⟨Or.inl rfl, rfl⟩
    · rw [if_neg hq, if_pos hb]
      exact ⟨Or.inr rfl, rfl⟩

/-- Witness for C8: at local time 23:00 under the default quiet hours
(22:00-07:00), with open deficits available, the cycle is skipped and no
state changes. -/
theorem c8_suppression_skips_whole_cycle_witness :
    process_user ⟨none, none, none, none, none, none, none, none, none⟩
      ⟨23, 0, 0⟩ 1000000 (Except.ok []) [] [] ⟨none, none, none, none⟩ [] none true =
      (Outcome.skipped_quiet, ⟨none, none, none, none, none, none, none, none, none⟩, []) :=
  (c8_suppression_skips_whole_cycle ⟨none, none, none, none, none, none, none, none, none⟩
    ⟨23, 0, 0⟩ 1000000 (Except.ok []) [] [] ⟨none, none, none, none⟩ [] none true).1
    (by decide)

/-- C6 (amended): with neither suppression gate firing, (a) a cycle whose
content hash equals the stored `last_nudge_hash` field of the user`s
preferences is skipped silently with no state change - the hash check
compares against that single stored field, with no time-bounded lookback
over the log; (a`) a cycle whose hash differs from the stored field (as a
materially different bucketed magnitude produces, the hash being built
from the `type|bucket` keys) is never suppressed by the hash check;
(b) if a nudge of the head candidate`s type was delivered on the telegram
channel within the per-type cooldown window (5 minutes in `process_user`),
the cycle is skipped silently with no state change, regardless of hash. -/
theorem c6_dedup_and_cooldown (pf : Prefs) (now : LocalTime) (nowUtcSec : ℤ)
    (feed : Except String (List CalEvent)) (mealsToday meals7d : List Meal)
    (latest : Latest) (logRows : List LogRow) (chatId : Option String)
    (sendOk : Bool)
    (hq : is_quiet_hours now pf = false)
    (hb : busy_by_calendar pf feed nowUtcSec = false) :
    (pf.last_nudge_hash =
        some (nudges_hash (build_nudges pf now nowUtcSec mealsToday meals7d latest)) →
      process_user pf now nowUtcSec feed mealsToday meals7d latest logRows chatId sendOk =
        (Outcome.skipped_hash, pf, logRows)) ∧
    (pf.last_nudge_hash ≠
        some (nudges_hash (build_nudges pf now nowUtcSec mealsToday meals7d latest)) →
      (process_user pf now nowUtcSec feed mealsToday meals7d latest logRows chatId
          sendOk).1 ≠ Outcome.skipped_hash) ∧
    (pf.last_nudge_hash ≠
        some (nudges_hash (build_nudges pf now nowUtcSec mealsToday meals7d latest)) →
      sent_same_type_recently logRows nowUtcSec
          ((build_nudges pf now nowUtcSec mealsToday meals7d latest).headD
            ⟨"", "", "", "", ""⟩).type 5 = true →
      process_user pf now nowUtcSec feed mealsToday meals7d latest logRows chatId sendOk =
        (Outcome.skipped_cooldown, pf, logRows)) := by
  have hq' : ¬(is_quiet_hours now pf = true) := by simp [hq]
  have hb' : ¬(busy_by_calendar pf feed nowUtcSec = true) := by simp [hb]
  refine ⟨fun hh => ?_, fun hh => ?_, fun hh hcool => ?_⟩
  · unfold process_user
    rw [if_neg hq', if_neg hb', if_pos hh]
  · unfold process_user
    rw [if_neg hq', if_neg hb', if_neg hh]
    repeat' split
    all_goals simp
  · unfold process_user
    rw [if_neg hq', if_neg hb', if_neg hh, if_pos hcool]

/-- Counterexample for C6 as stated: the claim`s hash suppression is a
lookback over recently logged hashes, but the code keeps only the single
`last_nudge_hash` preference field. Concretely: the current cycle`s hash
`kcal_pace|1200;steps_pace|5000;water_pace|600;` was logged for this user
one hour ago (well inside a 2-hour lookback, second conjunct), yet because
the stored last hash is the different value `"x"`, the cycle is not
suppressed and dispatches (first conjunct). The same-type cooldown does
not intervene: the matching row is 3600 s old, beyond the 5-minute
cooldown. -/
theorem c6_dedup_and_cooldown_counterexample :
    (process_user ⟨none, none, none, none, none, none, none, some "x", some "inapp"⟩
        ⟨14, 0, 0⟩ 1000000 (Except.ok []) [] [] ⟨none, none, none, none⟩
        [⟨996400, "telegram", "kcal_pace", "kcal_pace|1200;steps_pace|5000;water_pace|600;"⟩]
        none true).1 = Outcome.sent "inapp" ∧
    ([(⟨996400, "telegram", "kcal_pace",
        "kcal_pace|1200;steps_pace|5000;water_pace|600;"⟩ : LogRow)].any fun row =>
      decide (row.rhash =
        nudges_hash (build_nudges
          ⟨none, none, none, none, none, none, none, some "x", some "inapp"⟩
          ⟨14, 0, 0⟩ 1000000 [] [] ⟨none, none, none, none⟩) ∧
        1000000 - 7200 ≤ row.ts)) = true := by
  with_unfolding_all decide

/-- Witness for C6: with the stored last hash equal to the current cycle`s
hash, the cycle ends in `skipped_hash` with preferences and log unchanged. -/
theorem c6_dedup_and_cooldown_witness :
    process_user ⟨none, none, none, none, none, none, none,
        some "kcal_pace|1200;steps_pace|5000;water_pace|600;", some "inapp"⟩
      ⟨14, 0, 0⟩ 1000000 (Except.ok []) [] [] ⟨none, none, none, none⟩ [] none true =
      (Outcome.skipped_hash,
       ⟨none, none, none, none, none, none, none,
        some "kcal_pace|1200;steps_pace|5000;water_pace|600;", some "inapp"⟩, []) :=
  (c6_dedup_and_cooldown ⟨none, none, none, none, none, none, none,
      some "kcal_pace|1200;steps_pace|5000;water_pace|600;", some "inapp"⟩
    ⟨14, 0, 0⟩ 1000000 (Except.ok []) [] [] ⟨none, none, none, none⟩ [] none true
    (by decide) (by decide)).1 (by with_unfolding_all decide)

/-- C10: the per-type cooldown inspects only rows logged with channel
`"telegram"`: its result on any log equals its result on the telegram-only
sublist (first conjunct); on a log whose rows are all in-app deliveries it
is `false` for every type and window (second conjunct); hence an in-app
user whose log is in-app only and whose current hash differs from the
stored one dispatches again, even if the same type was just delivered
in-app (third conjunct). -/
theorem c10_cooldown_telegram_only (logAny logRows : List LogRow)
    (nowUtcSec : ℤ) (t : String) (minutes : ℤ) (pf : Prefs) (now : LocalTime)
    (feed : Except String (List CalEvent)) (mealsToday meals7d : List Meal)
    (latest : Latest) (chatId : Option String) (sendOk : Bool)
    (hq : is_quiet_hours now pf = false)
    (hb : busy_by_calendar pf feed nowUtcSec = false)
    (hallin : ∀ row ∈ logRows, row.channel = "inapp")
    (hh : pf.last_nudge_hash ≠
      some (nudges_hash (build_nudges pf now nowUtcSec mealsToday meals7d latest)))
    (hch : orS pf.nudge_channel "telegram" = "inapp") :
    sent_same_type_recently logAny nowUtcSec t minutes =
      sent_same_type_recently (logAny.filter fun row => decide (row.channel = "telegram"))
        nowUtcSec t minutes ∧
    sent_same_type_recently logRows nowUtcSec t minutes = false ∧
    process_user pf now nowUtcSec feed mealsToday meals7d latest logRows chatId sendOk =
      (Outcome.sent "inapp",
       setLastHash pf (nudges_hash (build_nudges pf now nowUtcSec mealsToday meals7d latest)),
       logRows ++ [⟨nowUtcSec, "inapp",
         ((build_nudges pf now nowUtcSec mealsToday meals7d latest).headD
           ⟨"", "", "", "", ""⟩).type,
         nudges_hash (build_nudges pf now nowUtcSec mealsToday meals7d latest)⟩]) := by
  have hfilter : ∀ (l : List LogRow),
      (l.filter fun row => decide (row.channel = "telegram")).filter
          (fun row => decide (row.channel = "telegram" ∧ nowUtcSec - minutes * 60 ≤ row.ts)) =
        l.filter (fun row => decide (row.channel = "telegram" ∧ nowUtcSec - minutes * 60 ≤ row.ts)) := by
    intro l
    rw [List.filter_filter]
    apply List.filter_congr
    intro row _
    by_cases hc : row.channel = "telegram" <;> simp [hc]
  have hnil :
      logRows.filter
        (fun row => decide (row.channel = "telegram" ∧ nowUtcSec - 5 * 60 ≤ row.ts)) = [] := by
    rw [List.filter_eq_nil_iff]
    intro row hrow
    simp [hallin row hrow]
  have hnil' : ∀ (m : ℤ),
      logRows.filter
        (fun row => decide (row.channel = "telegram" ∧ nowUtcSec - m * 60 ≤ row.ts)) = [] := by
    intro m
    rw [List.filter_eq_nil_iff]
    intro row hrow
    simp [hallin row hrow]
  have hcool : sent_same_type_recently logRows nowUtcSec t minutes = false := by
    unfold sent_same_type_recently
    rw [hnil' minutes]
    rfl
  refine ⟨?_, hcool, ?_⟩
  · unfold sent_same_type_recently
    rw [hfilter logAny]
  · have hq' : ¬(is_quiet_hours now pf = true) := by simp [hq]
    have hb' : ¬(busy_by_calendar pf feed nowUtcSec = true) := by simp [hb]
    have hcool5 : ¬(sent_same_type_recently logRows nowUtcSec
        ((build_nudges pf now nowUtcSec mealsToday meals7d latest).headD
          ⟨"", "", "", "", ""⟩).type 5 = true) := by
      unfold sent_same_type_recently
      rw [hnil]
      simp
    unfold process_user
    rw [if_neg hq', if_neg hb', if_neg hh, if_neg hcool5, if_pos hch]

/-- Witness for C10: an in-app user whose only log row is an in-app
delivery of the same type 60 seconds ago is not blocked by the cooldown
and dispatches again since the hash differs. -/
theorem c10_cooldown_telegram_only_witness :
    sent_same_type_recently [⟨999940, "inapp", "kcal_pace", "h0"⟩] 1000000 "kcal_pace" 5 =
      sent_same_type_recently
        (([⟨999940, "inapp", "kcal_pace", "h0"⟩] : List LogRow).filter fun row =>
          decide (row.channel = "telegram")) 1000000 "kcal_pace" 5 ∧
    sent_same_type_recently [⟨999940, "inapp", "kcal_pace", "h0"⟩] 1000000 "kcal_pace" 5 = false ∧
    process_user ⟨none, none, none, none, none, none, none, some "x", some "inapp"⟩
        ⟨14, 0, 0⟩ 1000000 (Except.ok []) [] [] ⟨none, none, none, none⟩
        [⟨999940, "inapp", "kcal_pace", "h0"⟩] none true =
      (Outcome.sent "inapp",
       setLastHash ⟨none, none, none, none, none, none, none, some "x", some "inapp"⟩
         (nudges_hash (build_nudges
           ⟨none, none, none, none, none, none, none, some "x", some "inapp"⟩
           ⟨14, 0, 0⟩ 1000000 [] [] ⟨none, none, none, none⟩)),
       [⟨999940, "inapp", "kcal_pace", "h0"⟩] ++ [⟨1000000, "inapp",
         ((build_nudges ⟨none, none, none, none, none, none, none, some "x", some "inapp"⟩
             ⟨14, 0, 0⟩ 1000000 [] [] ⟨none, none, none, none⟩).headD
           ⟨"", "", "", "", ""⟩).type,
         nudges_hash (build_nudges
           ⟨none, none, none, none, none, none, none, some "x", some "inapp"⟩
           ⟨14, 0, 0⟩ 1000000 [] [] ⟨none, none, none, none⟩)⟩]) :=
  c10_cooldown_telegram_only [⟨999940, "inapp", "kcal_pace", "h0"⟩]
    [⟨999940, "inapp", "kcal_pace", "h0"⟩] 1000000 "kcal_pace" 5
    ⟨none, none, none, none, none, none, none, some "x", some "inapp"⟩
    ⟨14, 0, 0⟩ (Except.ok []) [] [] ⟨none, none, none, none⟩ none true
    (by decide) (by decide) (by decide)
    (by with_unfolding_all decide) (by decide)

lemma pairwiseAnd {α : Type _} {R S : α → α → Prop} :
    ∀ {l : List α}, l.Pairwise R → l.Pairwise S →
      l.Pairwise fun a b => R a b ∧ S a b := by
  intro l hR hS
  induction l with
  | nil => exact List.Pairwise.nil
  | cons a t ih =>
    rcases List.pairwise_cons.mp hR with ⟨hRa, hRt⟩
    rcases List.pairwise_cons.mp hS with ⟨hSa, hSt⟩
    exact List.pairwise_cons.mpr ⟨fun b hb => ⟨hRa b hb, hSa b hb⟩, ih hRt hSt⟩

lemma kcalBy_nonneg (meals : List Meal) (k : String)
    (h : ∀ m ∈ meals, 0 ≤ m.calories) : 0 ≤ kcalBy meals k := by
  unfold kcalBy
  apply List.sum_nonneg
  intro x hx
  obtain ⟨m, hm, rfl⟩ := List.mem_map.mp hx
  exact h m (List.mem_of_mem_filter hm)

lemma fracOf_nonneg (meals : List Meal) (k : String)
    (h : ∀ m ∈ meals, 0 ≤ m.calories) : 0 ≤ fracOf meals k := by
  unfold fracOf
  apply div_nonneg
  · exact_mod_cast kcalBy_nonneg meals k h
  · have h1 : (0 : ℤ) ≤ max 1 (totalKcal meals) :=
      le_trans zero_le_one (le_max_left _ _)
    exact_mod_cast h1

lemma profilePoints_sorted (meals : List Meal) :
    List.Pairwise hourLE (profilePoints meals) := by
  unfold profilePoints
  exact List.sorted_insertionSort hourLE _

lemma profilePoints_snd_nonneg (meals : List Meal)
    (h : ∀ m ∈ meals, 0 ≤ m.calories) :
    ∀ p ∈ profilePoints meals, 0 ≤ p.2 := by
  intro p hp
  unfold profilePoints at hp
  have hp' := (List.perm_insertionSort hourLE _).mem_iff.mp hp
  simp only [List.mem_cons, List.not_mem_nil, or_false] at hp'
  rcases hp' with rfl | rfl | rfl | rfl <;> exact fracOf_nonneg meals _ h

lemma accumAnchors_fst : ∀ (c : ℚ) (l : List (ℚ × ℚ)),
    (accumAnchors c l).map Prod.fst = l.map Prod.fst := by
  intro c l
  induction l generalizing c with
  | nil => rfl
  | cons p rest ih =>
    cases p with
    | mk hr fr => simp [accumAnchors, ih]

lemma accumAnchors_wf : ∀ (l : List (ℚ × ℚ)) (c : ℚ), 0 ≤ c → c ≤ 1 →
    (∀ p ∈ l, 0 ≤ p.2) →
    List.Chain (· ≤ ·) c ((accumAnchors c l).map Prod.snd) ∧
    ∀ q ∈ accumAnchors c l, q.2 ≤ 1 := by
  intro l
  induction l with
  | nil =>
    intro c _ _ _
    exact ⟨List.Chain.nil, by simp [accumAnchors]⟩
  | cons p rest ih =>
    intro c hc0 hc1 hp
    cases p with
    | mk hr fr =>
      have hfr : 0 ≤ fr := hp _ (List.mem_cons_self _ _)
      have hle : c ≤ min 1 (c + fr) := le_min hc1 (le_add_of_nonneg_right hfr)
      have h0 : 0 ≤ min 1 (c + fr) := le_trans hc0 hle
      have hb : min 1 (c + fr) ≤ 1 := min_le_left _ _
      obtain ⟨ihc, ihb⟩ :=
        ih (min 1 (c + fr)) h0 hb (fun q hq => hp q (List.mem_cons_of_mem _ hq))
      constructor
      · simp only [accumAnchors, List.map_cons]
        exact List.Chain.cons hle ihc
      · intro q hq
        simp only [accumAnchors, List.mem_cons] at hq
        rcases hq with rfl | hq
        · exact hb
        · exact ihb q hq

lemma rolling_7d_profile_wf (meals : List Meal)
    (h : ∀ m ∈ meals, 0 ≤ m.calories) : anchorsWF (rolling_7d_profile meals) := by
  unfold rolling_7d_profile
  split
  · refine ⟨by with_unfolding_all decide, ?_, by with_unfolding_all decide⟩
    simp only [List.map_cons, List.map_nil]
    exact List.Chain.cons (by norm_num)
      (List.Chain.cons (by norm_num)
        (List.Chain.cons (by norm_num)
          (List.Chain.cons (by norm_num) List.Chain.nil)))
  · have hsnd := profilePoints_snd_nonneg meals h
    obtain ⟨hchain, hb⟩ :=
      accumAnchors_wf (profilePoints meals) 0 le_rfl zero_le_one hsnd
    refine ⟨?_, hchain, hb⟩
    have hfst := accumAnchors_fst 0 (profilePoints meals)
    have hmap : List.Pairwise (· ≤ ·) ((profilePoints meals).map Prod.fst) :=
      (List.pairwise_map).mpr ((profilePoints_sorted meals).imp fun hab => hab)
    rw [← hfst] at hmap
    exact ((List.pairwise_map).mp hmap).imp fun hab => hab

lemma efGo_ge (h : ℚ) : ∀ (l : List (ℚ × ℚ)) (f : ℚ),
    List.Chain (· ≤ ·) f (l.map Prod.snd) → f ≤ efGo h l f := by
  intro l
  induction l with
  | nil => exact fun f _ => le_rfl
  | cons p rest ih =>
    intro f hch
    cases p with
    | mk ah cum =>
      rw [List.map_cons] at hch
      cases hch with
      | cons hfc hch =>
        unfold efGo
        split
        · exact le_trans hfc (ih cum hch)
        · exact le_rfl

lemma efGo_mono {h₁ h₂ : ℚ} (hh : h₁ ≤ h₂) : ∀ (l : List (ℚ × ℚ)) (f : ℚ),
    List.Chain (· ≤ ·) f (l.map Prod.snd) → efGo h₁ l f ≤ efGo h₂ l f := by
  intro l
  induction l with
  | nil => exact fun f _ => le_rfl
  | cons p rest ih =>
    intro f hch
    cases p with
    | mk ah cum =>
      rw [List.map_cons] at hch
      cases hch with
      | cons hfc hch =>
        unfold efGo
        by_cases ha1 : ah ≤ h₁
        · rw [if_pos ha1, if_pos (le_trans ha1 hh)]
          exact ih cum hch
        · rw [if_neg ha1]
          by_cases ha2 : ah ≤ h₂
          · rw [if_pos ha2]
            exact le_trans hfc (efGo_ge h₂ rest cum hch)
          · rw [if_neg ha2]

lemma anchorsWF_pairwise_lex {A : List (ℚ × ℚ)} (hwf : anchorsWF A) :
    List.Pairwise anchorLex A := by
  obtain ⟨hhour, hchain, _⟩ := hwf
  have hsnd : List.Pairwise (· ≤ ·) (A.map Prod.snd) :=
    (List.pairwise_cons.mp (List.chain_iff_pairwise.mp hchain)).2
  have hsnd' : List.Pairwise (fun a b : ℚ × ℚ => a.2 ≤ b.2) A :=
    (List.pairwise_map).mp hsnd
  refine (pairwiseAnd (hhour.imp fun hab => hab) hsnd').imp ?_
  rintro a b ⟨hhab, hsab⟩
  rcases hhab.lt_or_eq with hlt | heq
  · exact Or.inl hlt
  · exact Or.inr ⟨heq, hsab⟩

lemma sort_anchors_eq {A : List (ℚ × ℚ)} (hwf : anchorsWF A) :
    List.insertionSort anchorLex A = A :=
  List.Sorted.insertionSort_eq (anchorsWF_pairwise_lex hwf)

lemma expected_fraction_mono {A : List (ℚ × ℚ)} (hwf : anchorsWF A)
    {h₁ h₂ : ℚ} (hh : h₁ ≤ h₂) :
    expected_fraction h₁ A ≤ expected_fraction h₂ A := by
  unfold expected_fraction
  rw [sort_anchors_eq hwf]
  exact min_le_min le_rfl (max_le_max le_rfl (efGo_mono hh A 0 hwf.2.1))

lemma expected_fraction_bounds (h : ℚ) (A : List (ℚ × ℚ)) :
    0 ≤ expected_fraction h A ∧ expected_fraction h A ≤ 1 :=
  ⟨le_min zero_le_one (le_max_left 0 _), min_le_left _ _⟩

/-- C3 (amended): for every meal history in which each meal`s calorie value
is nonnegative - every value the manual entry forms accept is - the profile
anchors are sorted by hour with nondecreasing cumulative fractions capped
at 1, and the step-function lookup is monotone in the hour with values in
`[0, 1]`; this includes the no-history default curve. A history containing
a negative calorie value (storable through the telegram bot`s free-text
calorie parse) breaks monotonicity: see the counterexample. -/
theorem c3_profile_monotone (meals : List Meal) (h₁ h₂ : ℚ)
    (hcal : ∀ m ∈ meals, 0 ≤ m.calories) (hh : h₁ ≤ h₂) :
    List.Pairwise (fun a b : ℚ × ℚ => a.1 ≤ b.1 ∧ a.2 ≤ b.2)
      (rolling_7d_profile meals) ∧
    (∀ p ∈ rolling_7d_profile meals, 0 ≤ p.2 ∧ p.2 ≤ 1) ∧
    expected_fraction h₁ (rolling_7d_profile meals) ≤
      expected_fraction h₂ (rolling_7d_profile meals) ∧
    0 ≤ expected_fraction h₁ (rolling_7d_profile meals) ∧
    expected_fraction h₁ (rolling_7d_profile meals) ≤ 1 := by
  obtain ⟨hhour, hchain, hb1⟩ := rolling_7d_profile_wf meals hcal
  have hcums := List.pairwise_cons.mp (List.chain_iff_pairwise.mp hchain)
  refine ⟨?_, ?_, expected_fraction_mono ⟨hhour, hchain, hb1⟩ hh,
    (expected_fraction_bounds h₁ _).1, (expected_fraction_bounds h₁ _).2⟩
  · exact pairwiseAnd (hhour.imp fun hab => hab) ((List.pairwise_map).mp hcums.2)
  · intro p hp
    exact ⟨hcums.1 p.2 (List.mem_map_of_mem _ hp), hb1 p hp⟩

/-- Counterexample for C3 as stated: the meal history
`[breakfast 100 kcal at 9:00, snacks -50 kcal at 16:00]` (a negative
calorie value is storable, e.g. via the telegram bot`s `items; calories`
free-text parse) produces anchors `[(9,1), (13,1), (16,0), (19.5,0)]`
whose cumulative values decrease, and the claimed monotonicity fails:
`expected_fraction` drops from 1 at hour 14 to 0 at hour 17. -/
theorem c3_profile_monotone_counterexample :
    (14 : ℚ) ≤ 17 ∧
    expected_fraction 17
        (rolling_7d_profile [⟨"breakfast", 100, 9, 0⟩, ⟨"snacks", -50, 16, 0⟩]) <
      expected_fraction 14
        (rolling_7d_profile [⟨"breakfast", 100, 9, 0⟩, ⟨"snacks", -50, 16, 0⟩]) := by
  with_unfolding_all decide

/-- Witness for C3 at a concrete input: a single 600 kcal lunch at 13:00. -/
theorem c3_profile_monotone_witness :
    expected_fraction 12 (rolling_7d_profile [⟨"lunch", 600, 13, 0⟩]) ≤
      expected_fraction 15 (rolling_7d_profile [⟨"lunch", 600, 13, 0⟩]) ∧
    0 ≤ expected_fraction 12 (rolling_7d_profile [⟨"lunch", 600, 13, 0⟩]) ∧
    expected_fraction 12 (rolling_7d_profile [⟨"lunch", 600, 13, 0⟩]) ≤ 1 := by
  have h := c3_profile_monotone [⟨"lunch", 600, 13, 0⟩] 12 15
    (by decide) (by norm_num)
  exact ⟨h.2.2.1, h.2.2.2.1, h.2.2.2.2⟩

end HW
